import Mathlib

/-!
Verification of the SUMMA GEMM host programs and analytical performance
models of this repository (csl-experiments).

Shallow embedding notes:
* numpy reshape/transpose pipelines on matrices are modelled as index
  arithmetic on total functions `ℕ → ℕ → α` (row-major flattening of the
  trailing axes, exactly as `numpy.reshape` lays indices out);
* Python integers are `ℕ`/`ℤ` (with `ℤ` where Python subtraction may go
  below zero); Python floats that carry exact decimal literals and exact
  small-integer data are modelled as `ℚ`;
* host buffers are `List ℚ`; an in-place `memcpy_d2h` write is a
  length-preserving map over the buffer.
-/

/-! ## TileLayoutTransform (src/gemm/summa_manual_multicasting/run.py, lines 109-111 and 198-204)

Forward ("cliff distribution"): `A1 = A.reshape(h, tr, w, tc)`,
`A2 = A1.transpose(0, 2, 3, 1)`, `A3 = A2.reshape(h, w, tr*tc)`.
Inverse: `C3 = buf.reshape(P, P, tc, tr)`, `C2 = C3.transpose(0, 3, 1, 2)`,
`C1 = C2.reshape(M, N)`.  `tr`/`tc` are the local tile row/column counts
(`Mt`/`Kt` for A, `Kt`/`Nt` for B, `Mt`/`Nt` for C). -/

/-- `A1 = A.reshape(h, tr, w, tc)`: index (gridRow, localRow, gridCol, localCol)
of the row-major matrix `X`. -/
def cliffA1 {α : Type} (tr tc : ℕ) (X : ℕ → ℕ → α) (gr lr gc lc : ℕ) : α :=
  X (gr * tr + lr) (gc * tc + lc)

/-- `A2 = A1.transpose(0, 2, 3, 1)`: axes reordered to (gridRow, gridCol,
localCol, localRow), making each local tile column-major. -/
def cliffA2 {α : Type} (tr tc : ℕ) (X : ℕ → ℕ → α) (gr gc lc lr : ℕ) : α :=
  cliffA1 tr tc X gr lr gc lc

/-- `A3 = A2.reshape(h, w, tr*tc)`: the last two axes (localCol, localRow)
flattened row-major into one per-cell buffer index `l = lc * tr + lr`. -/
def toTiles {α : Type} (tr tc : ℕ) (X : ℕ → ℕ → α) (gr gc l : ℕ) : α :=
  cliffA2 tr tc X gr gc (l / tr) (l % tr)

/-- `C3 = buf.reshape(P, P, tc, tr)`: unflatten each per-cell buffer back to
(localCol, localRow). -/
def cliffC3 {α : Type} (tr : ℕ) (T : ℕ → ℕ → ℕ → α) (gr gc lc lr : ℕ) : α :=
  T gr gc (lc * tr + lr)

/-- `C2 = C3.transpose(0, 3, 1, 2)`: axes back to (gridRow, localRow,
gridCol, localCol). -/
def cliffC2 {α : Type} (tr : ℕ) (T : ℕ → ℕ → ℕ → α) (gr lr gc lc : ℕ) : α :=
  cliffC3 tr T gr gc lc lr

/-- `C1 = C2.reshape(M, N)`: the inverse cliff transform of a per-cell tile
buffer family back to a full row-major matrix. -/
def fromTiles {α : Type} (tr tc : ℕ) (T : ℕ → ℕ → ℕ → α) (r c : ℕ) : α :=
  cliffC2 tr T (r / tr) (r % tr) (c / tc) (c % tc)

/-- C1: the inverse cliff transform undoes the forward cliff transform on
every element of a `(P*tileRows) × (P*tileCols)` matrix: the composition is
the identity, over an arbitrary element type (so elements are relocated,
never altered). -/
theorem cliff_roundtrip_id {α : Type} (P tr tc : ℕ) (X : ℕ → ℕ → α) (r c : ℕ)
    (_hP : 1 ≤ P) (htr : 1 ≤ tr) (_htc : 1 ≤ tc)
    (_hr : r < P * tr) (_hc : c < P * tc) :
    fromTiles tr tc (toTiles tr tc X) r c = X r c := by
  unfold fromTiles cliffC2 cliffC3 toTiles cliffA2 cliffA1
  have h1 : (c % tc * tr + r % tr) % tr = r % tr := by
    rw [mul_comm, Nat.mul_add_mod]
    exact Nat.mod_mod_of_dvd r dvd_rfl
  have h2 : (c % tc * tr + r % tr) / tr = c % tc := by
    rw [mul_comm, Nat.mul_add_div htr, Nat.div_eq_of_lt (Nat.mod_lt r htr), Nat.add_zero]
  rw [h1, h2, Nat.div_add_mod', Nat.div_add_mod']

/-- C1 witness: the round trip evaluated on a concrete 4×6 matrix
(P = 2, tileRows = 2, tileCols = 3) at element (3, 5). -/
theorem cliff_roundtrip_id_witness :
    fromTiles 2 3 (toTiles 2 3 (fun r c => 10 * r + c)) 3 5 = 35 :=
  cliff_roundtrip_id 2 2 3 (fun r c => 10 * r + c) 3 5
    (by decide) (by decide) (by decide) (by decide) (by decide)

/-! ## Validator (src/gemm/summa_manual_multicasting/run.py, line 211;
src/gemm/previous_manual/summa_manual_original/run.py, lines 111-125)

`np.testing.assert_allclose(C_expected, C, rtol=1e-05, atol=1e-06)` checks
`|actual − desired| ≤ atol + rtol·|desired|` elementwise, with
`actual = C_expected` (the host reference product) and `desired = C` (the
gathered device result).  The original variant also reports
`max_diff = np.max(np.abs(C_expected - C))` and the flat-index coordinates
`worst_idx = np.unravel_index(np.argmax(diff), diff.shape)` on failure. -/

/-- `rtol=1e-05` of the `assert_allclose` call. -/
def assert_rtol : ℚ := 1 / 100000

/-- `atol=1e-06` of the `assert_allclose` call. -/
def assert_atol : ℚ := 1 / 1000000

/-- numpy's elementwise closeness test `|actual − desired| ≤ atol + rtol·|desired|`. -/
def allclosePass (rtol atol actual desired : ℚ) : Bool :=
  decide (|actual - desired| ≤ atol + rtol * |desired|)

/-- The validation outcome: `assert_allclose(C_expected, C, ...)` raises no
error (the run then prints SUCCESS) iff every element passes. -/
def validatorSuccess (M N : ℕ) (Cexp Cdev : ℕ → ℕ → ℚ) : Bool :=
  (List.range M).all fun i =>
    (List.range N).all fun j =>
      allclosePass assert_rtol assert_atol (Cexp i j) (Cdev i j)

/-- `np.abs(C_expected - C)` at flat index `k` of an M×N row-major array. -/
def absDiffAt (N : ℕ) (Cexp Cdev : ℕ → ℕ → ℚ) (k : ℕ) : ℚ :=
  |Cexp (k / N) (k % N) - Cdev (k / N) (k % N)|

/-- `max_diff = np.max(np.abs(C_expected - C))` (0 for an empty array). -/
def maxAbsDiff (M N : ℕ) (Cexp Cdev : ℕ → ℕ → ℚ) : ℚ :=
  ((List.range (M * N)).map (absDiffAt N Cexp Cdev)).foldr max 0

lemma le_foldr_max_of_mem {l : List ℚ} {x : ℚ} (hx : x ∈ l) :
    x ≤ l.foldr max 0 := by
  induction l with
  | nil => cases hx
  | cons a t ih =>
    rcases List.mem_cons.mp hx with h | h
    · subst h; exact le_max_left _ _
    · exact le_trans (ih h) (le_max_right _ _)

lemma foldr_max_zero_or_mem (l : List ℚ) :
    l.foldr max 0 = 0 ∨ l.foldr max 0 ∈ l := by
  induction l with
  | nil => left; rfl
  | cons a t ih =>
    rcases max_choice a (t.foldr max 0) with h | h
    · right; rw [List.foldr_cons, h]; exact List.mem_cons_self a t
    · rcases ih with h0 | hm
      · left; rw [List.foldr_cons, h, h0]
      · right; rw [List.foldr_cons, h]; exact List.mem_cons_of_mem a hm

/-- C2 counterexample: with a 1×1 gathered matrix, reference element 0 and
device element 1.000005e-6, the validator reports SUCCESS (the relative term
is taken on the gathered C, the `desired` argument), yet the claim's
condition `|C − C_ref| ≤ 1e-6 + 1e-5·|C_ref|` fails at that element. -/
theorem validator_rtol_base_cex :
    validatorSuccess 1 1 (fun _ _ => 0) (fun _ _ => 1000005 / 1000000000000) = true
    ∧ ¬ (|(1000005 : ℚ) / 1000000000000 - 0| ≤ assert_atol + assert_rtol * |(0 : ℚ)|) := by
  constructor
  · simp only [validatorSuccess, show List.range 1 = [0] from rfl, List.all_cons, List.all_nil,
      Bool.and_true, allclosePass, decide_eq_true_eq]
    norm_num [assert_rtol, assert_atol, zero_sub, abs_neg, abs_of_nonneg]
  · norm_num [assert_rtol, assert_atol, abs_of_nonneg]

/-- C2 amended: the host reports SUCCESS iff every element satisfies
`|C_ref − C| ≤ atol + rtol·|C|` with atol = 1e-6, rtol = 1e-5 — the relative
tolerance is taken on the gathered C, which `assert_allclose` receives as its
`desired` argument; the reported maximum absolute difference bounds every
elementwise difference and is attained at some matrix coordinate (or the
array is trivial and it is 0). -/
theorem validator_tolerance_iff (M N : ℕ) (Cexp Cdev : ℕ → ℕ → ℚ) :
    (validatorSuccess M N Cexp Cdev = true ↔
        ∀ i < M, ∀ j < N,
          |Cexp i j - Cdev i j| ≤ assert_atol + assert_rtol * |Cdev i j|)
    ∧ (∀ i < M, ∀ j < N, |Cexp i j - Cdev i j| ≤ maxAbsDiff M N Cexp Cdev)
    ∧ (maxAbsDiff M N Cexp Cdev = 0 ∨
        ∃ i < M, ∃ j < N, maxAbsDiff M N Cexp Cdev = |Cexp i j - Cdev i j|) := by
  refine ⟨?_, ?_, ?_⟩
  · simp [validatorSuccess, allclosePass, List.all_eq_true, List.mem_range]
  · intro i hi j hj
    have hN : 0 < N := Nat.lt_of_le_of_lt (Nat.zero_le j) hj
    have hk : i * N + j < M * N := by
      calc i * N + j < i * N + N := by omega
        _ = (i + 1) * N := by ring
        _ ≤ M * N := Nat.mul_le_mul_right N (by omega)
    have hswap : i * N + j = j + N * i := by ring
    have hdiv : (i * N + j) / N = i := by
      rw [hswap, Nat.add_mul_div_left _ _ hN, Nat.div_eq_of_lt hj, Nat.zero_add]
    have hmod : (i * N + j) % N = j := by
      rw [hswap, Nat.add_mul_mod_self_left, Nat.mod_eq_of_lt hj]
    have hmem : absDiffAt N Cexp Cdev (i * N + j)
        ∈ (List.range (M * N)).map (absDiffAt N Cexp Cdev) :=
      List.mem_map_of_mem _ (List.mem_range.mpr hk)
    have hle := le_foldr_max_of_mem hmem
    unfold absDiffAt at hle
    rw [hdiv, hmod] at hle
    exact hle
  · rcases foldr_max_zero_or_mem ((List.range (M * N)).map (absDiffAt N Cexp Cdev))
      with h0 | hm
    · left; exact h0
    · right
      rcases List.mem_map.mp hm with ⟨k, hk, hval⟩
      have hkr := List.mem_range.mp hk
      have hN : 0 < N := by
        rcases Nat.eq_zero_or_pos N with h | h
        · subst h; simp at hkr
        · exact h
      refine ⟨k / N, ?_, k % N, Nat.mod_lt k hN, hval.symm⟩
      exact Nat.div_lt_of_lt_mul (by rwa [mul_comm] at hkr)

/-! ## 1-D broadcast test (src/gemm/broadcast_1d/run.py, lines 31-33 and 74-96)

PE `i` is seeded with `np.arange(i*N, (i+1)*N)`; after the kernel, the host
accepts iff `np.allclose(result[i], data[P-1])` for every PE `i`, with
numpy's default tolerances rtol = 1e-5, atol = 1e-8. -/

/-- numpy default `rtol` of `np.allclose`. -/
def allclose_rtol : ℚ := 1 / 100000

/-- numpy default `atol` of `np.allclose`. -/
def allclose_atol : ℚ := 1 / 100000000

/-- `data[i][j] = i*N + j` — the seeding loop `data[i] = np.arange(i*N, (i+1)*N)`. -/
def seedData (N i j : ℕ) : ℚ := (i * N + j : ℕ)

/-- The host's acceptance: `all_correct` stays true (and SUCCESS is printed)
iff every PE's result row passes `np.allclose` against `expected = data[P-1]`. -/
def broadcastSuccess (P N : ℕ) (result : ℕ → ℕ → ℚ) : Bool :=
  (List.range P).all fun i =>
    (List.range N).all fun j =>
      allclosePass allclose_rtol allclose_atol (result i j) (seedData N (P - 1) j)

/-- C3 counterexample: with P = 4, N = 6, a result state whose PE-0 element 0
is 18 + 1e-4 (all other elements exact) is accepted by the host — `np.allclose`
tolerates it (1e-4 ≤ 1e-8 + 1e-5·18) — although the rows do not equal PE 3's
original vector, so "SUCCESS iff all rows equal cell P−1's data" is false. -/
theorem broadcast_equality_cex :
    broadcastSuccess 4 6
        (fun i j => if i = 0 ∧ j = 0 then (18 : ℚ) + 1 / 10000 else seedData 6 3 j) = true
    ∧ ¬ (∀ i < 4, ∀ j < 6,
          (fun i j => if i = 0 ∧ j = 0 then (18 : ℚ) + 1 / 10000 else seedData 6 3 j) i j
            = seedData 6 3 j) := by
  constructor
  · simp only [broadcastSuccess, List.all_eq_true, List.mem_range, allclosePass,
      decide_eq_true_eq]
    intro i hi j hj
    interval_cases i <;> interval_cases j <;>
      norm_num [seedData, allclose_atol, allclose_rtol, abs_of_nonneg]
  · intro h
    have h0 := h 0 (by norm_num) 0 (by norm_num)
    norm_num [seedData] at h0

/-- C3 amended: the host reports SUCCESS iff every one of the P result rows is
elementwise within numpy's default allclose tolerance
(`|result − expected| ≤ 1e-8 + 1e-5·|expected|`) of cell P−1's original
vector (exact equality is in particular accepted); the expected vector for
P = 4, N = 6 is exactly [18, 19, 20, 21, 22, 23], cell 3's seeded data. -/
theorem broadcast_success_iff (P N : ℕ) (result : ℕ → ℕ → ℚ) :
    (broadcastSuccess P N result = true ↔
        ∀ i < P, ∀ j < N,
          |result i j - seedData N (P - 1) j|
            ≤ allclose_atol + allclose_rtol * |seedData N (P - 1) j|)
    ∧ (List.range 6).map (seedData 6 3) = [18, 19, 20, 21, 22, 23] := by
  constructor
  · simp [broadcastSuccess, allclosePass, List.all_eq_true, List.mem_range]
  · norm_num [show List.range 6 = [0, 1, 2, 3, 4, 5] from rfl, seedData]

/-! ## BroadcastScheduler analysis (src/gemm/analyze_pipeline_benefit.py)

`estimate_timing` produces per-step GEMM and broadcast cycle estimates;
`compare_versions` derives `sequential_total = P * (bcast + gemm)` (line 55)
and `pipelined_total = bcast + P * gemm + pipeline_overhead` (line 59) with
`pipeline_overhead = 2000`.  Python floats are modelled as exact rationals. -/

/-- `base_ops = 14 * 14 * 14` (baseline tile volume). -/
def base_ops : ℕ := 14 * 14 * 14

/-- `gemm_time_per_step = 11897 * (ops / base_ops)` with `ops = Mt*Kt*Nt`. -/
def gemm_time_per_step (Mt Kt Nt : ℕ) : ℚ :=
  11897 * ((Mt * Kt * Nt : ℕ) / (base_ops : ℚ))

/-- `base_data = 2 * (14 * 14)` (baseline A+B data volume). -/
def base_data : ℕ := 2 * (14 * 14)

/-- `transfer_time = 30 * (data_size / base_data)` with `data_size = Mt*Kt + Kt*Nt`. -/
def transfer_time (Mt Kt Nt : ℕ) : ℚ :=
  30 * ((Mt * Kt + Kt * Nt : ℕ) / (base_data : ℚ))

/-- `fabric_latency = 50 * P`. -/
def fabric_latency (P : ℕ) : ℚ := 50 * P

/-- `broadcast_time_per_step = transfer_time + fabric_latency + 11000`. -/
def broadcast_time_per_step (P Mt Kt Nt : ℕ) : ℚ :=
  transfer_time Mt Kt Nt + fabric_latency P + 11000

/-- `estimate_timing` returns `(gemm_time_per_step, broadcast_time_per_step)`. -/
def estimate_timing (P Mt Kt Nt : ℕ) : ℚ × ℚ :=
  (gemm_time_per_step Mt Kt Nt, broadcast_time_per_step P Mt Kt Nt)

/-- `pipeline_overhead = 2000  # Task management, state tracking`. -/
def pipeline_overhead : ℚ := 2000

/-- Line 55: `sequential_total = P * (bcast_time + gemm_time)`, as a function
of the per-step predicted times. -/
def sequentialTotalModel (P : ℕ) (bcast_time gemm_time : ℚ) : ℚ :=
  P * (bcast_time + gemm_time)

/-- Line 59: `pipelined_total = bcast_time + P * gemm_time + pipeline_overhead`. -/
def pipelinedTotalModel (P : ℕ) (bcast_time gemm_time : ℚ) : ℚ :=
  bcast_time + P * gemm_time + pipeline_overhead

/-- The result dictionary of `compare_versions`. -/
structure CompareResult where
  gemm_per_step : ℚ
  bcast_per_step : ℚ
  ratio : ℚ
  sequential_total : ℚ
  pipelined_total : ℚ
  savings : ℚ
  speedup_pct : ℚ
  pipelinedWins : Bool

/-- `compare_versions(P, Mt, Kt, Nt)` of the analyzer. -/
def compare_versions (P Mt Kt Nt : ℕ) : CompareResult :=
  let gemm_time := (estimate_timing P Mt Kt Nt).1
  let bcast_time := (estimate_timing P Mt Kt Nt).2
  let sequential_total := sequentialTotalModel P bcast_time gemm_time
  let pipelined_total := pipelinedTotalModel P bcast_time gemm_time
  { gemm_per_step := gemm_time
    bcast_per_step := bcast_time
    ratio := bcast_time / gemm_time
    sequential_total := sequential_total
    pipelined_total := pipelined_total
    savings := ((P : ℚ) - 1) * bcast_time - pipeline_overhead
    speedup_pct := (sequential_total - pipelined_total) / sequential_total * 100
    pipelinedWins := decide ((sequential_total - pipelined_total) / sequential_total * 100 > 0) }

/-- C4: for P ≥ 1 and positive per-step predicted times, the pipelined
predicted total `b + P*c + pipelineOverhead` is strictly below the sequential
predicted total `P*(b + c)` iff `(P−1)·b > pipelineOverhead`; otherwise the
sequential prediction is at most the pipelined one. -/
theorem pipelined_wins_iff (P : ℕ) (b c : ℚ) (hP : 1 ≤ P) (_hb : 0 < b) (_hc : 0 < c) :
    (pipelinedTotalModel P b c < sequentialTotalModel P b c ↔
        ((P : ℚ) - 1) * b > pipeline_overhead)
    ∧ (¬ ((P : ℚ) - 1) * b > pipeline_overhead →
        sequentialTotalModel P b c ≤ pipelinedTotalModel P b c) := by
  have hP1 : (1 : ℚ) ≤ (P : ℚ) := by exact_mod_cast hP
  unfold pipelinedTotalModel sequentialTotalModel pipeline_overhead
  constructor
  · constructor <;> intro h <;> nlinarith [h, hP1]
  · intro h; nlinarith [h, hP1]

/-- C4 witness: at P = 4, b = 2000, c = 1 the pipelined prediction is
strictly below the sequential one ((P−1)·b = 6000 > 2000). -/
theorem pipelined_wins_iff_witness :
    pipelinedTotalModel 4 2000 1 < sequentialTotalModel 4 2000 1 :=
  (pipelined_wins_iff 4 2000 1 (by norm_num) (by norm_num) (by norm_num)).1.mpr
    (by norm_num [pipeline_overhead])

/-! ## PerformanceModel (src/gemm/summa_manual_multicasting/performance_model.py)

`compute_iter` uses Python's `bin(x).count('1')` (population count), modelled
by a fuel-based binary digit sum; `b_load = 2*d - 1 - (Kt % 2) + 8` can go
through negative intermediate values in Python, so the compute model lives
in `ℤ`. -/

/-- Fuel-based population count helper; `countOnesAux fuel n` sums the binary
digits of `n`, consuming one fuel per digit. -/
def countOnesAux : ℕ → ℕ → ℕ
  | 0, _ => 0
  | _ + 1, 0 => 0
  | fuel + 1, n + 1 => (n + 1) % 2 + countOnesAux fuel ((n + 1) / 2)

/-- `bin(n).count('1')`: the number of 1 bits of `n` (fuel `n` suffices since
the argument at least halves each step). -/
def countOnes (n : ℕ) : ℕ := countOnesAux n n

/-- `compute_iter(Mt, Kt, Nt)`:
`d = bin((3*Kt >> 1) ^ (Kt >> 1)).count('1')`,
`b_load = 2*d - 1 - (Kt % 2) + 8`, `fmacs = (Mt+1)*2`,
`dsd_increment = 14 + 3`, `loop_control = 3`,
result `Kt * Nt * (b_load + fmacs + dsd_increment + loop_control)`. -/
def compute_iter (Mt Kt Nt : ℕ) : ℤ :=
  let d : ℤ := countOnes ((3 * Kt) / 2 ^^^ Kt / 2)
  let b_load : ℤ := 2 * d - 1 - (Kt % 2 : ℕ) + 8
  let fmacs : ℤ := ((Mt : ℤ) + 1) * 2
  let dsd_increment : ℤ := 14 + 3
  let loop_control : ℤ := 3
  (Kt : ℤ) * (Nt : ℤ) * (b_load + fmacs + dsd_increment + loop_control)

/-- `configure_broadcast = 62`. -/
def configure_broadcast : ℕ := 62

/-- `wavelet_broadcasting = 2 * (Mt * Nt)`. -/
def wavelet_broadcasting (Mt Nt : ℕ) : ℕ := 2 * (Mt * Nt)

/-- `callback_task = 13 + 13  # A_done + B_done`. -/
def callback_task : ℕ := 13 + 13

/-- `receive_hops = P * (P - 1)` — the model's closed form for the total
broadcast hops of one full row-and-column multicast step. -/
def receive_hops (P : ℕ) : ℕ := P * (P - 1)

/-- `broadcast_iter(P, Mt, Nt)`: per-step broadcast cycle prediction. -/
def broadcast_iter (P Mt Nt : ℕ) : ℕ :=
  configure_broadcast + wavelet_broadcasting Mt Nt + callback_task + receive_hops P

/-- `h2d_memcpy(P, Mt, Kt, Nt)`. -/
def h2d_memcpy (P Mt Kt Nt : ℕ) : ℕ :=
  1300 + Mt * Kt * P * P + 1100 + Kt * Nt * P * P + 330

/-- `d2h_memcpy(P, Mt, Nt)` (`P` is an unused parameter in the source too). -/
def d2h_memcpy (_P Mt Nt : ℕ) : ℕ := Mt * Nt * 52

/-- `kernel_cycles = (P * compute) + ((P-1) * broadcast)` inside `total_cycles`. -/
def kernel_cycles (P Mt Kt Nt : ℕ) : ℤ :=
  (P : ℤ) * compute_iter Mt Kt Nt + ((P : ℤ) - 1) * (broadcast_iter P Mt Nt : ℤ)

/-- `io_cycles = h2d + d2h` inside `total_cycles`. -/
def io_cycles (P Mt Kt Nt : ℕ) : ℕ := h2d_memcpy P Mt Kt Nt + d2h_memcpy P Mt Nt

/-- `travel_bottom_right = (P - 1) * 2 + (P - 1)`. -/
def travel_bottom_right (P : ℕ) : ℤ := ((P : ℤ) - 1) * 2 + ((P : ℤ) - 1)

/-- `total_cycles` (first component of the returned triple). -/
def total_cycles (P Mt Kt Nt : ℕ) : ℤ :=
  travel_bottom_right P + kernel_cycles P Mt Kt Nt + (io_cycles P Mt Kt Nt : ℤ)

/-- C5 counterexample: at P = 2, Mt = Kt = Nt = 1 the performance model's
kernel total is 2·32 + 1·92 = 156 cycles, not P·(compute + broadcast) =
2·(32 + 92) = 248 cycles: the model counts the broadcast only P−1 times. -/
theorem kernel_cycles_cex :
    kernel_cycles 2 1 1 1 ≠ 2 * (compute_iter 1 1 1 + (broadcast_iter 2 1 1 : ℤ)) := by
  decide

/-- C5 amended: the pipeline-benefit analyzer's sequential total is exactly
P·(broadcastTime + computeTime) with no overlap, while the performance
model's sequential kernel total counts the broadcast only P−1 times:
`kernel_cycles = P·(compute + broadcast) − broadcast`. -/
theorem sequential_total_characterization (P Mt Kt Nt : ℕ) :
    (compare_versions P Mt Kt Nt).sequential_total
        = P * ((compare_versions P Mt Kt Nt).bcast_per_step
            + (compare_versions P Mt Kt Nt).gemm_per_step)
    ∧ kernel_cycles P Mt Kt Nt
        = (P : ℤ) * (compute_iter Mt Kt Nt + (broadcast_iter P Mt Nt : ℤ))
            - (broadcast_iter P Mt Nt : ℤ) := by
  constructor
  · rfl
  · unfold kernel_cycles; ring

/-- C6: the model's per-step `receive_hops` term equals both the closed form
P·(P−1) and twice the hop-distance sum (P−1) + (P−2) + ... + 1 + 0 of one
row (or column) broadcast line, so one full row-and-column multicast step of
a P×P grid costs P·(P−1) hops. -/
theorem hop_count_identity (P Mt Nt : ℕ) :
    receive_hops P = 2 * ∑ i in Finset.range P, i
    ∧ receive_hops P = P * (P - 1)
    ∧ broadcast_iter P Mt Nt
        = configure_broadcast + wavelet_broadcasting Mt Nt + callback_task + receive_hops P := by
  refine ⟨?_, rfl, rfl⟩
  have h := Finset.sum_range_id_mul_two P
  unfold receive_hops
  rw [← h]; ring

/-! ## Refined compute model
(src/gemm/summa_manual_multicasting_pipelined_doubleColor/predict_memcpy.py,
`predict_compute_cycles`) -/

/-- `setup_per_iter = 120  # cycles (DSD config, loop init, router config)`. -/
def setup_per_iter : ℕ := 120

/-- `fmacs_per_iter = Kt * Nt`. -/
def fmacs_per_iter (Kt Nt : ℕ) : ℕ := Kt * Nt

/-- `cycles_per_fmacs = 1 + Mt  # 1 issue + Mt execution`. -/
def cycles_per_fmacs (Mt : ℕ) : ℕ := 1 + Mt

/-- `overhead_per_fmacs = 43` (empirical per-FMACS instruction/stall cost). -/
def overhead_per_fmacs : ℕ := 43

/-- `cycles_per_iter = setup_per_iter + fmacs_per_iter * cycles_per_fmacs
+ fmacs_per_iter * overhead_per_fmacs`. -/
def cycles_per_iter (Mt Kt Nt : ℕ) : ℕ :=
  setup_per_iter + fmacs_per_iter Kt Nt * cycles_per_fmacs Mt
    + fmacs_per_iter Kt Nt * overhead_per_fmacs

/-- `predict_compute_cycles = P * cycles_per_iter`. -/
def predict_compute_cycles (P Mt Kt Nt : ℕ) : ℕ := P * cycles_per_iter Mt Kt Nt

/-- C8: the refined model's per-step compute prediction equals
`120 + Kt·Nt·(1+Mt) + Kt·Nt·43` (setupOverhead = 120, perFmacsOverhead = 43),
and the total compute prediction is P times the per-step value. -/
theorem refined_compute_model (P Mt Kt Nt : ℕ) :
    cycles_per_iter Mt Kt Nt = 120 + Kt * Nt * (1 + Mt) + Kt * Nt * 43
    ∧ predict_compute_cycles P Mt Kt Nt = P * cycles_per_iter Mt Kt Nt := by
  constructor
  · unfold cycles_per_iter setup_per_iter fmacs_per_iter cycles_per_fmacs overhead_per_fmacs
    ring
  · rfl

/-! ## ResultGatherer / configuration checks
(src/gemm/summa_manual_multicasting/run.py, lines 31-40 and 182-204)

Matrix dimensions are derived from the compiled tile parameters
(`M = Mt * P`, `K = Kt * P`, `N = Nt * P`), so the divisibility
precondition holds for every run by construction, before any transfer.
The host allocates the device-to-host C buffer itself
(`np.zeros(expected_c_size)`), `memcpy_d2h` fills it in place, and the
size check compares that same buffer's element count against
`expected_c_size = M * N` before reshaping; on mismatch a `ValueError`
carrying both counts is raised and no reshaped C is produced. -/

/-- `M = Mt * P`. -/
def fullM (P Mt : ℕ) : ℕ := Mt * P

/-- `K = Kt * P`. -/
def fullK (P Kt : ℕ) : ℕ := Kt * P

/-- `N = Nt * P`. -/
def fullN (P Nt : ℕ) : ℕ := Nt * P

/-- `expected_c_size = M * N  # P*P*Mt*Nt`. -/
def expected_c_size (P Mt Nt : ℕ) : ℕ := fullM P Mt * fullN P Nt

/-- The per-cell tile buffer view of the flat device-to-host C buffer:
cell (gr, gc)'s buffer element `l` sits at flat offset
`(gr*P + gc) * (Mt*Nt) + l` (row-major (P, P, Mt*Nt) layout). -/
def cTileBuffer (P Mt Nt : ℕ) (buf : List ℚ) (gr gc l : ℕ) : ℚ :=
  buf.getD ((gr * P + gc) * (Mt * Nt) + l) 0

/-- The gather step: raise the `C size mismatch` ValueError (carrying the
actual and the expected element counts) when the buffer size is off,
otherwise reshape/transpose the buffer back into the M×N result matrix. -/
def gatherC (P Mt Nt : ℕ) (buf : List ℚ) : Except (ℕ × ℕ) (ℕ → ℕ → ℚ) :=
  if buf.length ≠ expected_c_size P Mt Nt then
    Except.error (buf.length, expected_c_size P Mt Nt)
  else
    Except.ok (fromTiles Mt Nt (cTileBuffer P Mt Nt buf))

/-- `C3_1d_u32 = np.zeros(expected_c_size)`: the host-allocated d2h buffer. -/
def allocC (P Mt Nt : ℕ) : List ℚ := List.replicate (expected_c_size P Mt Nt) 0

/-- `runner.memcpy_d2h(C3_1d_u32, ...)`: the device writes values into the
host buffer in place — a length-preserving elementwise overwrite. -/
def memcpyD2HFill (dev : ℕ → ℚ) (buf : List ℚ) : List ℚ :=
  buf.mapIdx fun i _ => dev i

/-- C7: configuration errors are fatal at the data-movement boundary — the
derived matrix dimensions satisfy the divisibility precondition (M, K, N are
multiples of P by construction, established before any transfer is issued),
`expected_c_size` is exactly P·P·Mt·Nt, and the gather step returns the
fatal error carrying (actual, expected) element counts exactly when the
returned count differs from `expected_c_size` — producing no result matrix
in that case, and the reshaped matrix otherwise. -/
theorem config_error_handling (P Mt Kt Nt : ℕ) (buf : List ℚ) :
    fullM P Mt % P = 0 ∧ fullK P Kt % P = 0 ∧ fullN P Nt % P = 0
    ∧ expected_c_size P Mt Nt = P * P * (Mt * Nt)
    ∧ (buf.length ≠ expected_c_size P Mt Nt →
        gatherC P Mt Nt buf = Except.error (buf.length, expected_c_size P Mt Nt))
    ∧ (buf.length = expected_c_size P Mt Nt →
        gatherC P Mt Nt buf = Except.ok (fromTiles Mt Nt (cTileBuffer P Mt Nt buf))) := by
  refine ⟨Nat.mul_mod_left Mt P, Nat.mul_mod_left Kt P, Nat.mul_mod_left Nt P, ?_, ?_, ?_⟩
  · unfold expected_c_size fullM fullN; ring
  · intro h; simp [gatherC, h]
  · intro h; simp [gatherC, h]

/-- C9: the d2h C buffer is allocated by the host with exactly
`expected_c_size` elements and filled in place, so its size always equals
`expected_c_size` and the `C size mismatch` ValueError branch is
unreachable: the gather step returns a result matrix for every device
content. -/
theorem c_size_check_unreachable (P Mt Nt : ℕ) (dev : ℕ → ℚ) :
    (memcpyD2HFill dev (allocC P Mt Nt)).length = expected_c_size P Mt Nt
    ∧ gatherC P Mt Nt (memcpyD2HFill dev (allocC P Mt Nt))
        = Except.ok (fromTiles Mt Nt (cTileBuffer P Mt Nt (memcpyD2HFill dev (allocC P Mt Nt)))) := by
  have hlen : (memcpyD2HFill dev (allocC P Mt Nt)).length = expected_c_size P Mt Nt := by
    simp [memcpyD2HFill, allocC]
  exact ⟨hlen, by simp [gatherC, hlen]⟩

/-! ## Cycle-count timestamps (src/gemm/summa_manual_multicasting/run.py, lines 55-56 and 142-178)

Each cell's start/end timestamps are 48-bit counters packed into the bit
patterns of three 32-bit words; `make_u48` reconstructs them from 16-bit
halves.  The per-cell reference `time_ref` is adjusted by the grid position
(`time_ref[py, px] -= px + py`) and subtracted from both start and end. -/

/-- `make_u48(words) = words[0] + (words[1] << 16) + (words[2] << 32)`. -/
def make_u48 (w0 w1 w2 : ℕ) : ℕ := w0 + w1 * 2 ^ 16 + w2 * 2 ^ 32

/-- `hex & 0x0000FFFF`: the low 16-bit half of a 32-bit word. -/
def word_lo (t : ℕ) : ℕ := t % 2 ^ 16

/-- `(hex >> 16) & 0x0000FFFF`: the high 16-bit half of a 32-bit word. -/
def word_hi (t : ℕ) : ℕ := t / 2 ^ 16 % 2 ^ 16

/-- `time_start[ii, jj]`, reconstructed from words 0 and 1 of the cell's
`time_memcpy` triple. -/
def timeStartOf (tm : ℕ → ℕ → ℕ → ℕ) (py px : ℕ) : ℕ :=
  make_u48 (word_lo (tm py px 0)) (word_hi (tm py px 0)) (word_lo (tm py px 1))

/-- `time_end[ii, jj]`, reconstructed from words 1 and 2 of the cell's
`time_memcpy` triple. -/
def timeEndOf (tm : ℕ → ℕ → ℕ → ℕ) (py px : ℕ) : ℕ :=
  make_u48 (word_hi (tm py px 1)) (word_lo (tm py px 2)) (word_hi (tm py px 2))

/-- `time_ref[ii, jj]`, reconstructed from the cell's `time_ref` pair. -/
def timeRefOf (tw : ℕ → ℕ → ℕ → ℕ) (py px : ℕ) : ℕ :=
  make_u48 (word_lo (tw py px 0)) (word_hi (tw py px 0)) (word_lo (tw py px 1))

/-- `time_ref[py, px] -= px + py`: the clock-skew compensation offset. -/
def refAdjusted (tw : ℕ → ℕ → ℕ → ℕ) (py px : ℕ) : ℤ :=
  (timeRefOf tw py px : ℤ) - (px + py)

/-- `time_end - time_start` after both were shifted by the adjusted
reference (`time_start -= time_ref`, `time_end -= time_ref`). -/
def cellCycleCount (tm tw : ℕ → ℕ → ℕ → ℕ) (py px : ℕ) : ℤ :=
  ((timeEndOf tm py px : ℤ) - refAdjusted tw py px)
    - ((timeStartOf tm py px : ℤ) - refAdjusted tw py px)

/-- `np.mean(time_end - time_start)` over the P×P grid, after the reference
subtraction. -/
def meanCycleCount (P : ℕ) (tm tw : ℕ → ℕ → ℕ → ℕ) : ℚ :=
  (∑ py in Finset.range P, ∑ px in Finset.range P, (cellCycleCount tm tw py px : ℚ))
    / ((P : ℚ) * P)

/-- C10: the per-cell reported cycle duration is invariant under the
clock-skew compensation — the adjusted reference cancels between end and
start, so each cell's count equals the raw reconstructed 48-bit
end-minus-start difference, and the printed mean equals the mean of those
raw differences, independent of `time_ref` and of the px+py offsets. -/
theorem timing_skew_cancellation (P : ℕ) (tm tw : ℕ → ℕ → ℕ → ℕ) :
    (∀ py px, cellCycleCount tm tw py px
        = (timeEndOf tm py px : ℤ) - (timeStartOf tm py px : ℤ))
    ∧ meanCycleCount P tm tw
        = (∑ py in Finset.range P, ∑ px in Finset.range P,
            (((timeEndOf tm py px : ℤ) - (timeStartOf tm py px : ℤ) : ℤ) : ℚ))
          / ((P : ℚ) * P) := by
  have hpt : ∀ py px, cellCycleCount tm tw py px
      = (timeEndOf tm py px : ℤ) - (timeStartOf tm py px : ℤ) := by
    intro py px
    unfold cellCycleCount refAdjusted
    ring
  refine ⟨hpt, ?_⟩
  unfold meanCycleCount
  congr 1
  refine Finset.sum_congr rfl fun py _ => Finset.sum_congr rfl fun px _ => ?_
  rw [hpt py px]
